import Mathlib

/-!
Verification of the workout-tracker core: the stopwatch timer hook and the
session-aggregation functions, shallowly embedded from the TypeScript source.

Conventions of the embedding:
* Wall-clock instants are integers in milliseconds since the epoch
  (the value of `Date.now()` / `Date#getTime()`).
* `Math.floor` of an integer quotient is `Int.fdiv` (floor division).
* The local timezone is modelled as UTC, so the local calendar date of an
  instant (what `Date#toDateString()` distinguishes) is its epoch-day number.
* A JavaScript plain object used as an accumulator map is modelled as an
  association list in key-insertion order, since `Object.entries` enumerates
  non-integer-like string keys in insertion order.
* JavaScript number arithmetic on the values occurring here (integer sums,
  quotients of small integers) is modelled exactly in `Int` and `Rat`.
-/

/-- A workout session record, keeping the fields the aggregation code reads:
`workout_type_id`, `start_time` (as epoch milliseconds) and
`duration_minutes`. Embeds the `WorkoutSession` rows of the source. -/
structure Session where
  workoutTypeId : String
  startMs : ℤ
  durationMinutes : ℤ
  deriving DecidableEq, Repr

/-- A workout type, keeping the fields the category bucketing reads. -/
structure WorkoutType where
  id : String
  name : String
  deriving DecidableEq, Repr

/-- The derived statistics record returned by `WorkoutService.getWorkoutStats`. -/
structure WorkoutStats where
  totalTime : ℤ
  totalSessions : ℕ
  trainingDays : ℕ
  dailyAverage : ℚ
  weeklyAverage : ℚ
  monthlyAverage : ℚ
  deriving DecidableEq, Repr

/-- The state held by the `useTimer` hook: the five `useState` variables
`isRunning`, `isPaused`, `startTime`, `elapsedTime`, `pausedTime`. -/
structure TimerState where
  isRunning : Bool
  isPaused : Bool
  startTime : Option ℤ
  elapsedTime : ℤ
  pausedTime : ℤ
  deriving DecidableEq, Repr

/-- The initial hook state: all `useState` initialisers. -/
def timerInit : TimerState :=
  { isRunning := false, isPaused := false, startTime := none
    elapsedTime := 0, pausedTime := 0 }

/-- The operations of the `useTimer` hook, plus the body of the 1-second
display interval (`tick`). Each time-dependent operation carries the
`Date.now()` value observed when it runs. -/
inductive TimerEvent where
  | start (now : ℤ)
  | pause (now : ℤ)
  | resume (now : ℤ)
  | stop
  | reset
  | tick (now : ℤ)
  deriving DecidableEq, Repr

/-- One step of the `useTimer` hook, embedded clause by clause:
`startTimer` unconditionally records `now`, sets Running and zeroes both
counters; `pauseTimer` is guarded by `isRunning && !isPaused && startTime`
and folds the current segment into `pausedTime`; `resumeTimer` is guarded by
`isPaused` and records a fresh segment start; `stopTimer` and `resetTimer`
clear every field; the interval body recomputes `elapsedTime` from the
absolute timestamps whenever the interval is installed (Running, not Paused,
`startTime` set), and no tick fires otherwise. -/
def stepEvt (s : TimerState) : TimerEvent → TimerState
  | .start now =>
      { isRunning := true, isPaused := false, startTime := some now
        elapsedTime := 0, pausedTime := 0 }
  | .pause now =>
      match s.startTime with
      | some st =>
          if s.isRunning && !s.isPaused then
            { s with isPaused := true
                     pausedTime := Int.fdiv (now - st) 1000 + s.pausedTime }
          else s
      | none => s
  | .resume now =>
      if s.isPaused then { s with startTime := some now, isPaused := false }
      else s
  | .stop =>
      { isRunning := false, isPaused := false, startTime := none
        elapsedTime := 0, pausedTime := 0 }
  | .reset =>
      { isRunning := false, isPaused := false, startTime := none
        elapsedTime := 0, pausedTime := 0 }
  | .tick now =>
      match s.startTime with
      | some st =>
          if s.isRunning && !s.isPaused then
            { s with elapsedTime := Int.fdiv (now - st) 1000 + s.pausedTime }
          else s
      | none => s

/-- Run a list of (resume instant, pause instant) pairs through the timer. -/
def runSegments (s : TimerState) : List (ℤ × ℤ) → TimerState
  | [] => s
  | (r, p) :: rest => runSegments (stepEvt (stepEvt s (.resume r)) (.pause p)) rest

/-- The trace start at `t0` s, pause at `t1` s, then resume/pause at each
pair of `segs` (all in whole seconds, scaled to milliseconds). -/
def timerScenario (t0 t1 : ℤ) (segs : List (ℤ × ℤ)) : TimerState :=
  runSegments (stepEvt (stepEvt timerInit (.start (1000 * t0))) (.pause (1000 * t1)))
    (segs.map fun rp => (1000 * rp.1, 1000 * rp.2))

/-- A reachable paused state: start at 0 ms, pause at 10000 ms, no tick in
between (e.g. the tab was suspended for those ten seconds). -/
def pausedNoTick : TimerState :=
  stepEvt (stepEvt timerInit (.start 0)) (.pause 10000)

/-! ## Aggregator: `WorkoutService.getWorkoutStats` and the view bucketings -/

/-- Milliseconds in one day, the constant `1000 * 60 * 60 * 24`. -/
def msPerDay : ℤ := 86400000

/-- The local calendar date of an instant, as an epoch-day number; two
instants agree on it exactly when `Date#toDateString()` renders them the
same (timezone modelled as UTC). -/
def jsDay (ms : ℤ) : ℤ := Int.fdiv ms msPerDay

/-- `Date#getDay()`: day of week, 0 = Sunday. Epoch day 0 was a Thursday. -/
def jsGetDay (ms : ℤ) : ℤ := (jsDay ms + 4).emod 7

/-- `sessions.reduce((sum, s) => sum + s.duration_minutes, 0)`. -/
def totalTimeOf (l : List Session) : ℤ := (l.map Session.durationMinutes).sum

/-- `new Set(sessions.map(s => new Date(s.start_time).toDateString())).size`. -/
def trainingDaysOf (l : List Session) : ℕ :=
  ((l.map fun s => jsDay s.startMs).dedup).length

/-- `Math.min(...dates.map(d => d.getTime()))` over a non-empty list
(the service returns early on the empty list, so the `[]` value is unused). -/
def minStartOf : List Session → ℤ
  | [] => 0
  | s :: rest => (rest.map Session.startMs).foldl min s.startMs

/-- `Math.max(...dates.map(d => d.getTime()))` over a non-empty list. -/
def maxStartOf : List Session → ℤ
  | [] => 0
  | s :: rest => (rest.map Session.startMs).foldl max s.startMs

/-- `Math.ceil((maxDate.getTime() - minDate.getTime()) / (1000*60*60*24))`. -/
def daysDiffOf (l : List Session) : ℤ :=
  Int.ceil (((maxStartOf l - minStartOf l : ℤ) : ℚ) / (msPerDay : ℚ))

/-- `WorkoutService.getWorkoutStats`, embedded line by line: the empty set
short-circuits to all-zero stats; otherwise `totalTime` is the duration sum,
`trainingDays` the number of distinct local dates, `dailyAverage` the guarded
quotient, and the weekly/monthly averages divide by
`Math.max(1, daysDiff / 7)` and `Math.max(1, daysDiff / 30)` (plain number
division of the ceiled day range, with no further rounding). -/
def computeStats (l : List Session) : WorkoutStats :=
  if l.isEmpty then
    { totalTime := 0, totalSessions := 0, trainingDays := 0
      dailyAverage := 0, weeklyAverage := 0, monthlyAverage := 0 }
  else
    { totalTime := totalTimeOf l
      totalSessions := l.length
      trainingDays := trainingDaysOf l
      dailyAverage :=
        if trainingDaysOf l > 0 then (totalTimeOf l : ℚ) / (trainingDaysOf l : ℚ) else 0
      weeklyAverage := (totalTimeOf l : ℚ) / max 1 ((daysDiffOf l : ℚ) / 7)
      monthlyAverage := (totalTimeOf l : ℚ) / max 1 ((daysDiffOf l : ℚ) / 30) }

/-- Modelled from the claim wording of C2 (not from the source): a weekly
average whose divisor is the integer ceiling of the week count, clamped
below at 1. -/
def claimWeeklyAverage (l : List Session) : ℚ :=
  (totalTimeOf l : ℚ) / (max 1 (Int.ceil ((daysDiffOf l : ℚ) / 7)) : ℤ)

/-- Modelled from the claim wording of C2 (not from the source): a monthly
average whose divisor is the integer ceiling of the month count, clamped
below at 1. -/
def claimMonthlyAverage (l : List Session) : ℚ :=
  (totalTimeOf l : ℚ) / (max 1 (Int.ceil ((daysDiffOf l : ℚ) / 30)) : ℤ)

/-- `obj[k] = (obj[k] || 0) + v` on a plain object: update the single entry
holding key `k` in place, or append a new entry at the end, preserving the
insertion order that `Object.entries` later enumerates. -/
def bump {κ : Type} [DecidableEq κ] : List (κ × ℤ) → κ → ℤ → List (κ × ℤ)
  | [], k, v => [(k, v)]
  | p :: rest, k, v =>
      if p.1 = k then (p.1, p.2 + v) :: rest else p :: bump rest k v

/-- The value a bucket map holds at key `k` (0 when absent). -/
def valueAt {κ : Type} [DecidableEq κ] (m : List (κ × ℤ)) (k : κ) : ℤ :=
  ((m.filter fun p => decide (p.1 = k)).map Prod.snd).sum

/-- The Sunday-aligned week key of an instant: the code copies the date,
rolls it back by `getDay()` days with `setDate`, and keys on the date part of
`toISOString()`, which is the epoch-day number minus the weekday index. -/
def weekStartDayOf (ms : ℤ) : ℤ := jsDay ms - jsGetDay ms

/-- The accumulation loop of `Analytics.getWeeklyData`: fold every session
into the week bucket object in input order. -/
def weeklyBuckets (sessions : List Session) : List (ℤ × ℤ) :=
  sessions.foldl (fun m s => bump m (weekStartDayOf s.startMs) s.durationMinutes) []

/-- `Analytics.getWeeklyData`: the bucket entries in object insertion order,
then `.slice(-8)`, i.e. the last eight entries of that order (all of them
when fewer). No sorting is applied at any point. -/
def getWeeklyData (sessions : List Session) : List (ℤ × ℤ) :=
  (weeklyBuckets sessions).drop ((weeklyBuckets sessions).length - 8)

/-- `workoutTypes.find(t => t.id === session.workoutTypeId)` followed by
`workoutType?.name || 'Unknown'`; an empty resolved name is falsy in
JavaScript, so it also falls back to the literal. -/
def resolveName (types : List WorkoutType) (s : Session) : String :=
  match types.find? fun t => decide (t.id = s.workoutTypeId) with
  | some t => if t.name = "" then "Unknown" else t.name
  | none => "Unknown"

/-- The accumulation loop of `Analytics.getWorkoutTypeData`: fold every
session into the bucket of its resolved type name (colors dropped, as they
do not affect the name/duration pairs). -/
def getWorkoutTypeData (sessions : List Session) (types : List WorkoutType) :
    List (String × ℤ) :=
  sessions.foldl (fun m s => bump m (resolveName types s) s.durationMinutes) []

/-- `Calendar.getSessionsForDate`: the sessions whose `toDateString` equals
the given date. -/
def getSessionsForDate (sessions : List Session) (d : ℤ) : List Session :=
  sessions.filter fun s => decide (jsDay s.startMs = d)

/-- `Calendar.getTotalDurationForDate`: duration sum of that day. -/
def getTotalDurationForDate (sessions : List Session) (d : ℤ) : ℤ :=
  totalTimeOf (getSessionsForDate sessions d)

/-- The day bucketing read off the calendar: the per-date total over every
distinct local calendar date carrying a session, summed. -/
def bucketByDayTotal (sessions : List Session) : ℤ :=
  (((sessions.map fun s => jsDay s.startMs).dedup).map fun d =>
    getTotalDurationForDate sessions d).sum

/-- `Math.round(x)` of a JavaScript number: floor of `x + 1/2`. -/
def jsRound (q : ℚ) : ℤ := Int.floor (q + 1 / 2)

/-- The duration gate of `WorkoutTimer.handleFinish`: the session duration is
`Math.round(elapsedTime / 60)`, and the store is not called when it is 0
(`none` = rejected before the store call). -/
def handleFinishDuration (elapsedTime : ℤ) : Option ℤ :=
  if jsRound ((elapsedTime : ℚ) / 60) = 0 then none
  else some (jsRound ((elapsedTime : ℚ) / 60))

/-- The duration gate of `ManualEntry.handleSubmit`: `parseInt` of the text
field (`none` = `NaN`), rejected when `isNaN(d) || d <= 0`. -/
def handleSubmitDuration (parsed : Option ℤ) : Option ℤ :=
  match parsed with
  | none => none
  | some d => if d ≤ 0 then none else some d

/-- Two sessions of 30 minutes, ten days apart (start instants 0 and
day 10, both at local midnight). -/
def exC2 : List Session :=
  [{ workoutTypeId := "run", startMs := 0, durationMinutes := 30 },
   { workoutTypeId := "run", startMs := 10 * 86400000, durationMinutes := 30 }]

/-- Nine sessions on nine consecutive Sundays (epoch days 3, 10, ..., 59),
listed in descending start-time order exactly as
`WorkoutService.getWorkoutSessions` returns them
(`order('start_time', ascending: false)`). -/
def exC3 : List Session :=
  [{ workoutTypeId := "t", startMs := 59 * 86400000, durationMinutes := 90 },
   { workoutTypeId := "t", startMs := 52 * 86400000, durationMinutes := 80 },
   { workoutTypeId := "t", startMs := 45 * 86400000, durationMinutes := 70 },
   { workoutTypeId := "t", startMs := 38 * 86400000, durationMinutes := 60 },
   { workoutTypeId := "t", startMs := 31 * 86400000, durationMinutes := 50 },
   { workoutTypeId := "t", startMs := 24 * 86400000, durationMinutes := 40 },
   { workoutTypeId := "t", startMs := 17 * 86400000, durationMinutes := 30 },
   { workoutTypeId := "t", startMs := 10 * 86400000, durationMinutes := 20 },
   { workoutTypeId := "t", startMs := 3 * 86400000, durationMinutes := 10 }]

/-- A session pointing at a workout-type id present in no type list. -/
def ghostSession : Session :=
  { workoutTypeId := "ghost", startMs := 0, durationMinutes := 25 }

/-- A workout type unrelated to `ghostSession`. -/
def yogaType : WorkoutType := { id := "yoga1", name := "Yoga" }

/-! ## Helper lemmas -/

lemma timerScenario_check : (timerScenario 0 10 [(20, 25)]).pausedTime = 15 := by decide

lemma valueAt_nil {κ : Type} [DecidableEq κ] (k : κ) :
    valueAt ([] : List (κ × ℤ)) k = 0 := rfl

lemma fdiv_thousand_mul (a : ℤ) : Int.fdiv (1000 * a) 1000 = a := by
  rw [Int.fdiv_eq_ediv_of_dvd ⟨a, rfl⟩]
  exact Int.mul_ediv_cancel_left a (by norm_num)

lemma foldl_min_spec (xs : List ℤ) : ∀ a : ℤ,
    (xs.foldl min a = a ∨ xs.foldl min a ∈ xs) ∧
    xs.foldl min a ≤ a ∧ ∀ x ∈ xs, xs.foldl min a ≤ x := by
  induction xs with
  | nil => intro a; simp
  | cons x t ih =>
    intro a
    obtain ⟨hmem, hle, hall⟩ := ih (min a x)
    refine ⟨?_, ?_, ?_⟩
    · rcases hmem with h | h
      · rcases min_choice a x with hc | hc
        · exact Or.inl (by rw [List.foldl_cons, h, hc])
        · exact Or.inr (by rw [List.foldl_cons, h, hc]; exact List.mem_cons_self x t)
      · exact Or.inr (List.mem_cons_of_mem _ h)
    · exact le_trans (by simpa using hle) (min_le_left a x)
    · intro y hy
      rcases List.mem_cons.mp hy with rfl | hy
      · exact le_trans (by simpa using hle) (min_le_right a y)
      · simpa using hall y hy

lemma foldl_max_spec (xs : List ℤ) : ∀ a : ℤ,
    (xs.foldl max a = a ∨ xs.foldl max a ∈ xs) ∧
    a ≤ xs.foldl max a ∧ ∀ x ∈ xs, x ≤ xs.foldl max a := by
  induction xs with
  | nil => intro a; simp
  | cons x t ih =>
    intro a
    obtain ⟨hmem, hle, hall⟩ := ih (max a x)
    refine ⟨?_, ?_, ?_⟩
    · rcases hmem with h | h
      · rcases max_choice a x with hc | hc
        · exact Or.inl (by rw [List.foldl_cons, h, hc])
        · exact Or.inr (by rw [List.foldl_cons, h, hc]; exact List.mem_cons_self x t)
      · exact Or.inr (List.mem_cons_of_mem _ h)
    · exact le_trans (le_max_left a x) (by simpa using hle)
    · intro y hy
      rcases List.mem_cons.mp hy with rfl | hy
      · exact le_trans (le_max_right a y) (by simpa using hle)
      · simpa using hall y hy

lemma minStartOf_mem {l : List Session} (h : l ≠ []) :
    minStartOf l ∈ l.map Session.startMs := by
  cases l with
  | nil => exact absurd rfl h
  | cons s rest =>
    rcases (foldl_min_spec (rest.map Session.startMs) s.startMs).1 with he | he
    · simp [minStartOf, he]
    · exact List.mem_cons_of_mem _ (by simpa [minStartOf] using he)

lemma minStartOf_le {l : List Session} {x : ℤ} (h : x ∈ l.map Session.startMs) :
    minStartOf l ≤ x := by
  cases l with
  | nil => simp at h
  | cons s rest =>
    obtain ⟨_, hle, hall⟩ := foldl_min_spec (rest.map Session.startMs) s.startMs
    rcases List.mem_cons.mp h with rfl | hx
    · simpa [minStartOf] using hle
    · simpa [minStartOf] using hall x hx

lemma maxStartOf_mem {l : List Session} (h : l ≠ []) :
    maxStartOf l ∈ l.map Session.startMs := by
  cases l with
  | nil => exact absurd rfl h
  | cons s rest =>
    rcases (foldl_max_spec (rest.map Session.startMs) s.startMs).1 with he | he
    · simp [maxStartOf, he]
    · exact List.mem_cons_of_mem _ (by simpa [maxStartOf] using he)

lemma maxStartOf_ge {l : List Session} {x : ℤ} (h : x ∈ l.map Session.startMs) :
    x ≤ maxStartOf l := by
  cases l with
  | nil => simp at h
  | cons s rest =>
    obtain ⟨_, hle, hall⟩ := foldl_max_spec (rest.map Session.startMs) s.startMs
    rcases List.mem_cons.mp h with rfl | hx
    · simpa [maxStartOf] using hle
    · simpa [maxStartOf] using hall x hx

lemma minStartOf_perm {l₁ l₂ : List Session} (h : l₁.Perm l₂) :
    minStartOf l₁ = minStartOf l₂ := by
  cases l₁ with
  | nil => rw [h.nil_eq.symm]
  | cons s rest =>
    have h₂ : l₂ ≠ [] := by
      intro hn; rw [hn] at h; exact (List.cons_ne_nil s rest) h.eq_nil
    apply le_antisymm
    · exact minStartOf_le ((h.map Session.startMs).mem_iff.mpr (minStartOf_mem h₂))
    · exact minStartOf_le ((h.map Session.startMs).mem_iff.mp
        (minStartOf_mem (List.cons_ne_nil s rest)))

lemma maxStartOf_perm {l₁ l₂ : List Session} (h : l₁.Perm l₂) :
    maxStartOf l₁ = maxStartOf l₂ := by
  cases l₁ with
  | nil => rw [h.nil_eq.symm]
  | cons s rest =>
    have h₂ : l₂ ≠ [] := by
      intro hn; rw [hn] at h; exact (List.cons_ne_nil s rest) h.eq_nil
    apply le_antisymm
    · exact maxStartOf_ge ((h.map Session.startMs).mem_iff.mp
        (maxStartOf_mem (List.cons_ne_nil s rest)))
    · exact maxStartOf_ge ((h.map Session.startMs).mem_iff.mpr (maxStartOf_mem h₂))

lemma valueAt_cons {κ : Type} [DecidableEq κ] (p : κ × ℤ) (m : List (κ × ℤ)) (k : κ) :
    valueAt (p :: m) k = (if p.1 = k then p.2 else 0) + valueAt m k := by
  by_cases h : p.1 = k <;> simp [valueAt, h]

lemma valueAt_bump {κ : Type} [DecidableEq κ] (m : List (κ × ℤ)) (k k' : κ) (v : ℤ) :
    valueAt (bump m k' v) k = valueAt m k + (if k' = k then v else 0) := by
  induction m with
  | nil =>
    by_cases h : k' = k <;> simp [bump, valueAt, h]
  | cons p rest ih =>
    by_cases hp : p.1 = k'
    · have hb : bump (p :: rest) k' v = (p.1, p.2 + v) :: rest := by
        simp [bump, hp]
      rw [hb, valueAt_cons, valueAt_cons]
      by_cases hk : p.1 = k
      · rw [if_pos hk, if_pos hk, if_pos (hp.symm.trans hk)]; ring
      · rw [if_neg hk, if_neg hk, if_neg fun he => hk (hp.trans he)]; ring
    · have hb : bump (p :: rest) k' v = p :: bump rest k' v := by
        simp [bump, hp]
      rw [hb, valueAt_cons, valueAt_cons, ih]; ring

lemma valueAt_foldl_bump {κ : Type} [DecidableEq κ] (key : Session → κ)
    (l : List Session) : ∀ (m : List (κ × ℤ)) (k : κ),
    valueAt (l.foldl (fun acc s => bump acc (key s) s.durationMinutes) m) k
      = valueAt m k + totalTimeOf (l.filter fun s => decide (key s = k)) := by
  induction l with
  | nil => intro m k; simp [totalTimeOf]
  | cons s rest ih =>
    intro m k
    rw [List.foldl_cons, ih, valueAt_bump]
    by_cases h : key s = k
    · simp [totalTimeOf, h]; ring
    · simp [totalTimeOf, h]

lemma totalTimeOf_filter_split (l : List Session) (p : Session → Bool) :
    totalTimeOf (l.filter p) + totalTimeOf (l.filter fun s => !(p s)) = totalTimeOf l := by
  induction l with
  | nil => simp [totalTimeOf]
  | cons s rest ih =>
    by_cases h : p s
    · simp only [totalTimeOf, List.filter_cons, h, Bool.not_true, if_pos,
        List.map_cons, List.sum_cons, if_neg Bool.false_ne_true] at ih ⊢
      omega
    · have h' : p s = false := by simpa using h
      simp only [totalTimeOf, List.filter_cons, h', Bool.not_false, if_pos,
        List.map_cons, List.sum_cons, if_neg Bool.false_ne_true] at ih ⊢
      omega

lemma sum_over_days (D : List ℤ) : ∀ l : List Session, D.Nodup →
    (∀ s ∈ l, jsDay s.startMs ∈ D) →
    (D.map fun d => totalTimeOf (l.filter fun s => decide (jsDay s.startMs = d))).sum
      = totalTimeOf l := by
  induction D with
  | nil =>
    intro l _ hcov
    have : l = [] := List.eq_nil_iff_forall_not_mem.mpr fun s hs => by
      simpa using hcov s hs
    simp [this, totalTimeOf]
  | cons d D ih =>
    intro l hnd hcov
    have hd : d ∉ D := (List.nodup_cons.mp hnd).1
    have hnd' : D.Nodup := (List.nodup_cons.mp hnd).2
    have hcov' : ∀ s ∈ l.filter fun s => !(decide (jsDay s.startMs = d)),
        jsDay s.startMs ∈ D := by
      intro s hs
      obtain ⟨hsl, hne⟩ := List.mem_filter.mp hs
      have hne' : jsDay s.startMs ≠ d := by simpa using hne
      rcases List.mem_cons.mp (hcov s hsl) with he | he
      · exact absurd he hne'
      · exact he
    have hrest : ∀ d' ∈ D,
        l.filter (fun s => decide (jsDay s.startMs = d'))
          = (l.filter fun s => !(decide (jsDay s.startMs = d))).filter
              (fun s => decide (jsDay s.startMs = d')) := by
      intro d' hd'
      rw [List.filter_filter]
      apply List.filter_congr
      intro s _
      by_cases hsd : jsDay s.startMs = d'
      · have hne : ¬ d' = d := fun he => hd (he ▸ hd')
        have hnd2 : ¬ jsDay s.startMs = d := fun he => hne (hsd.symm.trans he)
        simp [hsd, hnd2, hne]
      · simp [hsd]
    calc (List.map (fun d => totalTimeOf (l.filter fun s => decide (jsDay s.startMs = d)))
            (d :: D)).sum
        = totalTimeOf (l.filter fun s => decide (jsDay s.startMs = d))
            + (D.map fun d' => totalTimeOf (l.filter fun s =>
                decide (jsDay s.startMs = d'))).sum := by
          simp
      _ = totalTimeOf (l.filter fun s => decide (jsDay s.startMs = d))
            + (D.map fun d' => totalTimeOf
                ((l.filter fun s => !(decide (jsDay s.startMs = d))).filter
                  fun s => decide (jsDay s.startMs = d'))).sum := by
          rw [List.map_congr_left fun d' hd' => by rw [hrest d' hd']]
      _ = totalTimeOf (l.filter fun s => decide (jsDay s.startMs = d))
            + totalTimeOf (l.filter fun s => !(decide (jsDay s.startMs = d))) := by
          rw [ih _ hnd' hcov']
      _ = totalTimeOf l := totalTimeOf_filter_split l _

lemma runSegments_pausedTime (segs : List (ℤ × ℤ)) : ∀ s : TimerState,
    s.isRunning = true → s.isPaused = true →
    (runSegments s (segs.map fun rp => (1000 * rp.1, 1000 * rp.2))).pausedTime
      = s.pausedTime + (segs.map fun rp => rp.2 - rp.1).sum ∧
    (runSegments s (segs.map fun rp => (1000 * rp.1, 1000 * rp.2))).isRunning = true ∧
    (runSegments s (segs.map fun rp => (1000 * rp.1, 1000 * rp.2))).isPaused = true := by
  induction segs with
  | nil => intro s h1 h2; simp [runSegments, h1, h2]
  | cons rp rest ih =>
    intro s h1 h2
    have hres : stepEvt s (.resume (1000 * rp.1))
        = { s with startTime := some (1000 * rp.1), isPaused := false } := by
      simp [stepEvt, h2]
    have hpau : stepEvt (stepEvt s (.resume (1000 * rp.1))) (.pause (1000 * rp.2))
        = { s with startTime := some (1000 * rp.1), isPaused := true
                   pausedTime := (rp.2 - rp.1) + s.pausedTime } := by
      rw [hres]
      have hdv : Int.fdiv (1000 * rp.2 - 1000 * rp.1) 1000 = rp.2 - rp.1 := by
        rw [show (1000 : ℤ) * rp.2 - 1000 * rp.1 = 1000 * (rp.2 - rp.1) by ring,
          fdiv_thousand_mul]
      simp [stepEvt, h1, hdv]
    obtain ⟨hsum, hrun, hpse⟩ := ih
      { s with startTime := some (1000 * rp.1), isPaused := true
               pausedTime := (rp.2 - rp.1) + s.pausedTime } (by simpa using h1) rfl
    refine ⟨?_, ?_, ?_⟩
    · rw [List.map_cons, runSegments, hpau]
      rw [hsum]
      simp only [List.map_cons, List.sum_cons]
      ring
    · rw [List.map_cons, runSegments, hpau]; exact hrun
    · rw [List.map_cons, runSegments, hpau]; exact hpse

lemma totalTimeOf_perm {l₁ l₂ : List Session} (h : l₁.Perm l₂) :
    totalTimeOf l₁ = totalTimeOf l₂ :=
  (h.map Session.durationMinutes).sum_eq

lemma trainingDaysOf_perm {l₁ l₂ : List Session} (h : l₁.Perm l₂) :
    trainingDaysOf l₁ = trainingDaysOf l₂ := by
  unfold trainingDaysOf
  exact ((h.map (fun s => jsDay s.startMs)).dedup).length_eq

/-! ## The claims -/

/-- C1, as stated by the spec: calling `start()` from Running or Paused is a
no-op that preserves accumulated time. Refuted at a concrete reachable
Paused state with ten accumulated seconds: `startTimer` resets the
accumulated `pausedTime` to 0 and changes the state. -/
theorem c1_start_not_noop_counterexample :
    pausedNoTick.isPaused = true ∧ pausedNoTick.pausedTime = 10 ∧
    (stepEvt pausedNoTick (.start 20000)).pausedTime = 0 ∧
    stepEvt pausedNoTick (.start 20000) ≠ pausedNoTick := by
  decide

/-- C1 amended: `startTimer` carries no state guard at all. From every state
(Idle, Running or Paused alike) it restarts the stopwatch: it records `now`
as the segment start, enters Running, and resets both the displayed elapsed
time and the accumulated baseline to 0. -/
theorem c1_start_restarts (s : TimerState) (now : ℤ) :
    stepEvt s (.start now)
      = { isRunning := true, isPaused := false, startTime := some now
          elapsedTime := 0, pausedTime := 0 } :=
  rfl

/-- C5: over any alternating start/pause/resume/pause trace with whole-second
call instants, the accumulated elapsed seconds read immediately before stop
equal the sum of the Running-interval durations alone: the first segment
`t1 - t0` plus `p - r` for every later resume/pause pair, with the lengths of
the Paused gaps nowhere in the result. The spec scenario start 0, pause 10,
resume 20, pause 25 is the instance `t0 = 0, t1 = 10, segs = [(20, 25)]`,
giving 15. -/
theorem c5_elapsed_is_running_interval_sum (t0 t1 : ℤ) (segs : List (ℤ × ℤ)) :
    (timerScenario t0 t1 segs).pausedTime
      = (t1 - t0) + (segs.map fun rp => rp.2 - rp.1).sum ∧
    (timerScenario t0 t1 segs).isPaused = true := by
  have hdv : Int.fdiv (1000 * t1 - 1000 * t0) 1000 = t1 - t0 := by
    rw [show (1000 : ℤ) * t1 - 1000 * t0 = 1000 * (t1 - t0) by ring, fdiv_thousand_mul]
  have hpause : stepEvt (stepEvt timerInit (.start (1000 * t0))) (.pause (1000 * t1))
      = { isRunning := true, isPaused := true, startTime := some (1000 * t0)
          elapsedTime := 0, pausedTime := t1 - t0 } := by
    simp [stepEvt, timerInit, hdv]
  obtain ⟨hsum, _, hp⟩ := runSegments_pausedTime segs
    { isRunning := true, isPaused := true, startTime := some (1000 * t0)
      elapsedTime := 0, pausedTime := t1 - t0 } rfl rfl
  constructor
  · unfold timerScenario
    rw [hpause, hsum]
  · unfold timerScenario
    rw [hpause]
    exact hp

/-- C6: `pauseTimer` called in any state that is not Running (Idle, or
already Paused), and `resumeTimer` called in any state that is not Paused,
return the state completely unchanged; in particular the accumulated
`pausedTime` is untouched. -/
theorem c6_wrong_state_pause_resume_noop (s : TimerState) (now : ℤ) :
    (s.isRunning = false ∨ s.isPaused = true → stepEvt s (.pause now) = s) ∧
    (s.isPaused = false → stepEvt s (.resume now) = s) := by
  constructor
  · intro h
    have hg : (s.isRunning && !s.isPaused) = false := by
      rcases h with h | h <;> simp [h]
    cases hst : s.startTime with
    | none => simp [stepEvt, hst]
    | some st => simp [stepEvt, hst, hg]
  · intro h
    simp [stepEvt, h]

/-- Witness for C6 at concrete states: pausing an already-Paused state with
ten accumulated seconds, and resuming the Idle state, both change nothing. -/
theorem c6_wrong_state_pause_resume_noop_witness :
    stepEvt pausedNoTick (.pause 12345) = pausedNoTick ∧
    stepEvt timerInit (.resume 12345) = timerInit :=
  ⟨(c6_wrong_state_pause_resume_noop pausedNoTick 12345).1 (Or.inr (by decide)),
   (c6_wrong_state_pause_resume_noop timerInit 12345).2 (by decide)⟩


/-- C7: `computeStats` is invariant under permutation of the input sequence;
all six fields (`totalTime`, `totalSessions`, `trainingDays`, `dailyAverage`,
`weeklyAverage`, `monthlyAverage`) agree on any two reorderings, since they
are built from a sum, a count, a distinct-day count and the minimum and
maximum start instants. -/
theorem c7_stats_perm_invariant {l₁ l₂ : List Session} (h : l₁.Perm l₂) :
    computeStats l₁ = computeStats l₂ := by
  cases l₁ with
  | nil => rw [← h.nil_eq]
  | cons a t =>
    cases l₂ with
    | nil =>
      exact absurd h.symm.nil_eq (by simp)
    | cons b u =>
      have htt := totalTimeOf_perm h
      have hlen := h.length_eq
      have htd := trainingDaysOf_perm h
      have hmin := minStartOf_perm h
      have hmax := maxStartOf_perm h
      simp only [computeStats, daysDiffOf]
      rw [if_neg (by simp : ¬((a :: t).isEmpty = true)),
        if_neg (by simp : ¬((b :: u).isEmpty = true)),
        htt, hlen, htd, hmin, hmax]

/-- Witness for C7: two concrete sessions, listed in both orders. -/
theorem c7_stats_perm_invariant_witness :
    ([{ workoutTypeId := "x", startMs := 5, durationMinutes := 10 },
      { workoutTypeId := "y", startMs := 259200007, durationMinutes := 20 }] :
        List Session).Perm
      [{ workoutTypeId := "y", startMs := 259200007, durationMinutes := 20 },
       { workoutTypeId := "x", startMs := 5, durationMinutes := 10 }] ∧
    computeStats
      [{ workoutTypeId := "x", startMs := 5, durationMinutes := 10 },
       { workoutTypeId := "y", startMs := 259200007, durationMinutes := 20 }]
      = computeStats
      [{ workoutTypeId := "y", startMs := 259200007, durationMinutes := 20 },
       { workoutTypeId := "x", startMs := 5, durationMinutes := 10 }] :=
  ⟨by decide, c7_stats_perm_invariant (by decide)⟩

/-- C8: summing the calendar per-date totals over every distinct local
calendar date equals the `totalTime` field of `computeStats` (the duration
sum over all sessions): the day buckets partition the session list. -/
theorem c8_day_bucket_total_eq_totalTime (sessions : List Session) :
    bucketByDayTotal sessions = (computeStats sessions).totalTime := by
  have hpart := sum_over_days ((sessions.map fun s => jsDay s.startMs).dedup) sessions
    (List.nodup_dedup _)
    (fun s hs => List.mem_dedup.mpr (List.mem_map_of_mem _ hs))
  cases sessions with
  | nil => simp [bucketByDayTotal, computeStats, totalTimeOf]
  | cons a t =>
    rw [bucketByDayTotal]
    simp only [getTotalDurationForDate, getSessionsForDate]
    rw [hpart]
    simp [computeStats]

/-- C9: a session whose workout-type id resolves to no entry of the type
list is labelled with the literal category name Unknown, and the Unknown
bucket of `getWorkoutTypeData` holds exactly the duration sum of the
sessions labelled Unknown, the given session among them. -/
theorem c9_unresolved_goes_to_unknown (sessions : List Session)
    (types : List WorkoutType) (s : Session) (hs : s ∈ sessions)
    (hnone : ∀ t ∈ types, t.id ≠ s.workoutTypeId) :
    resolveName types s = "Unknown" ∧
    valueAt (getWorkoutTypeData sessions types) "Unknown"
      = totalTimeOf (sessions.filter fun x =>
          decide (resolveName types x = "Unknown")) ∧
    s ∈ sessions.filter fun x => decide (resolveName types x = "Unknown") := by
  have hfind : types.find? (fun t => decide (t.id = s.workoutTypeId)) = none := by
    apply List.find?_eq_none.mpr
    intro t ht
    simpa using hnone t ht
  have hres : resolveName types s = "Unknown" := by
    unfold resolveName
    rw [hfind]
  refine ⟨hres, ?_, ?_⟩
  · have hv := valueAt_foldl_bump (resolveName types) sessions [] "Unknown"
    simpa [getWorkoutTypeData, valueAt_nil] using hv
  · exact List.mem_filter.mpr ⟨hs, by simp [hres]⟩

/-- Witness for C9: one session referencing the absent id ghost against a
type list holding only Yoga. -/
theorem c9_unresolved_goes_to_unknown_witness :
    resolveName [yogaType] ghostSession = "Unknown" ∧
    valueAt (getWorkoutTypeData [ghostSession] [yogaType]) "Unknown"
      = totalTimeOf (([ghostSession] : List Session).filter fun x =>
          decide (resolveName [yogaType] x = "Unknown")) ∧
    ghostSession ∈ ([ghostSession] : List Session).filter fun x =>
      decide (resolveName [yogaType] x = "Unknown") :=
  c9_unresolved_goes_to_unknown [ghostSession] [yogaType] ghostSession
    (by decide) (by decide)

/-- C10: both creation flows only hand strictly positive durations to the
store. The timer finish flow computes `Math.round(elapsed / 60)` and returns
before the store call when it is 0, so with a non-negative elapsed reading
an accepted duration is at least 1; the manual-entry flow rejects a `NaN`
parse and any parsed value at most 0. -/
theorem c10_created_durations_positive :
    (∀ e d : ℤ, 0 ≤ e → handleFinishDuration e = some d → 1 ≤ d) ∧
    (∀ p : Option ℤ, ∀ d : ℤ, handleSubmitDuration p = some d → 1 ≤ d) := by
  constructor
  · intro e d he hd
    rw [handleFinishDuration] at hd
    by_cases h0 : jsRound ((e : ℚ) / 60) = 0
    · simp [h0] at hd
    · rw [if_neg h0] at hd
      have hd2 : jsRound ((e : ℚ) / 60) = d := Option.some.inj hd
      have hnn : 0 ≤ jsRound ((e : ℚ) / 60) := by
        rw [jsRound]
        apply Int.le_floor.mpr
        have h60 : (0 : ℚ) ≤ (e : ℚ) / 60 :=
          div_nonneg (by exact_mod_cast he) (by norm_num)
        push_cast
        linarith
      omega
  · intro p d hd
    cases p with
    | none => simp [handleSubmitDuration] at hd
    | some x =>
      rw [handleSubmitDuration] at hd
      by_cases hx : x ≤ 0
      · simp [hx] at hd
      · rw [if_neg hx] at hd
        have := Option.some.inj hd
        omega

/-- Witness for C10: a 45-second timer workout rounds to 1 minute and is
accepted; a manual entry of 30 minutes is accepted. -/
theorem c10_created_durations_positive_witness : (1 : ℤ) ≤ 1 ∧ (1 : ℤ) ≤ 30 :=
  ⟨c10_created_durations_positive.1 45 1 (by decide)
      (by norm_num [handleFinishDuration, jsRound]),
   c10_created_durations_positive.2 (some 30) 30 (by decide)⟩

/-- C2, as stated: the claim predicts divisors `max(1, ceil(days/7))` and
`max(1, ceil(days/30))`. Refuted on two 30-minute sessions ten days apart:
the source divides by `Math.max(1, 10 / 7)` with plain number division, so
its weekly average is 60 / (10/7) = 42, while the claimed ceiling formula
gives 60 / 2 = 30. -/
theorem c2_ceiling_divisor_counterexample :
    (computeStats exC2).weeklyAverage = 42 ∧
    claimWeeklyAverage exC2 = 30 ∧
    (computeStats exC2).weeklyAverage ≠ claimWeeklyAverage exC2 := by
  have htt : totalTimeOf exC2 = 60 := by norm_num [totalTimeOf, exC2]
  have hdd : daysDiffOf exC2 = 10 := by
    have hmin : minStartOf exC2 = 0 := by norm_num [minStartOf, exC2]
    have hmax : maxStartOf exC2 = 864000000 := by norm_num [maxStartOf, exC2]
    rw [daysDiffOf, hmin, hmax, msPerDay]
    norm_num
  have hproj : (computeStats exC2).weeklyAverage
      = (totalTimeOf exC2 : ℚ) / max 1 ((daysDiffOf exC2 : ℚ) / 7) := by
    simp [computeStats, exC2]
  have hweek : (computeStats exC2).weeklyAverage = 42 := by
    rw [hproj, htt, hdd]
    rw [max_eq_right (by norm_num : (1 : ℚ) ≤ ((10 : ℤ) : ℚ) / 7)]
    norm_num
  have hceil : Int.ceil (((10 : ℤ) : ℚ) / 7) = (2 : ℤ) := by
    rw [Int.ceil_eq_iff]
    constructor <;> norm_num
  have hclaim : claimWeeklyAverage exC2 = 30 := by
    rw [claimWeeklyAverage, htt, hdd, hceil]
    norm_num
  exact ⟨hweek, hclaim, by rw [hweek, hclaim]; norm_num⟩

/-- C2 amended: with `m` the least and `M` the greatest start instant of a
non-empty session set, the code's averages are
`totalTime / max(1, dateRangeDays / 7)` and
`totalTime / max(1, dateRangeDays / 30)` where
`dateRangeDays = ceil((M - m) in days)`: the day range is ceiled, but the
week and month counts are exact rational quotients of it, not ceilings. -/
theorem c2_average_divisors (l : List Session) (m M : ℤ) (hne : l ≠ [])
    (hm₁ : m ∈ l.map Session.startMs) (hm₂ : ∀ x ∈ l.map Session.startMs, m ≤ x)
    (hM₁ : M ∈ l.map Session.startMs) (hM₂ : ∀ x ∈ l.map Session.startMs, x ≤ M) :
    (computeStats l).weeklyAverage
      = (totalTimeOf l : ℚ)
          / max 1 ((Int.ceil (((M - m : ℤ) : ℚ) / (msPerDay : ℚ)) : ℚ) / 7) ∧
    (computeStats l).monthlyAverage
      = (totalTimeOf l : ℚ)
          / max 1 ((Int.ceil (((M - m : ℤ) : ℚ) / (msPerDay : ℚ)) : ℚ) / 30) := by
  have hmin : minStartOf l = m :=
    le_antisymm (minStartOf_le hm₁) (hm₂ _ (minStartOf_mem hne))
  have hmax : maxStartOf l = M :=
    le_antisymm (hM₂ _ (maxStartOf_mem hne)) (maxStartOf_ge hM₁)
  cases l with
  | nil => exact absurd rfl hne
  | cons a t =>
    constructor <;>
      simp [computeStats, daysDiffOf, hmin, hmax]

/-- Witness for C2 amended, at the two sessions ten days apart. -/
theorem c2_average_divisors_witness :
    (computeStats exC2).weeklyAverage
      = (totalTimeOf exC2 : ℚ)
          / max 1 ((Int.ceil (((864000000 - 0 : ℤ) : ℚ) / (msPerDay : ℚ)) : ℚ) / 7) ∧
    (computeStats exC2).monthlyAverage
      = (totalTimeOf exC2 : ℚ)
          / max 1 ((Int.ceil (((864000000 - 0 : ℤ) : ℚ) / (msPerDay : ℚ)) : ℚ) / 30) :=
  c2_average_divisors exC2 0 864000000 (by decide) (by decide) (by decide)
    (by decide) (by decide)

/-- C3 / code bug: evaluation at the failing input. Fed nine sessions on
nine consecutive Sundays in the descending start-time order the store
supplies, `getWeeklyData` returns the buckets of the eight OLDEST weeks
(epoch days 52 down to 3) in DESCENDING week order, dropping the most
recent week (day 59) entirely: there is no sort, the object keeps
first-occurrence insertion order, and `.slice(-8)` then keeps the tail of
that order, contradicting both the ascending order and the
most-recent-eight truncation the claim (and the code's own comment
slice(-8) = last 8 weeks) state. The final conjunct confirms day 59 is the
Sunday-aligned week key of the newest session, so it is a genuine missing
bucket. -/
theorem c3_weekly_chart_eval :
    getWeeklyData exC3
      = [(52, 80), (45, 70), (38, 60), (31, 50), (24, 40), (17, 30), (10, 20), (3, 10)] ∧
    ¬ List.Sorted (· ≤ ·) ((getWeeklyData exC3).map Prod.fst) ∧
    (59 : ℤ) ∉ (getWeeklyData exC3).map Prod.fst ∧
    weekStartDayOf (59 * 86400000) = 59 := by
  decide

/-- C4, as stated: refuted at the reachable trace start at 0 ms, pause at
10000 ms with no tick in between (the display interval never fired, e.g.
under background-tab suspension). While Paused the frozen accumulated
baseline is 10 s, but the `elapsedTime` value the hook exposes (which the
display and `handleFinish` read) is still 0: the exposed value is written
only by the periodic tick, so it is not tick-independent and does not equal
the frozen baseline. -/
theorem c4_paused_display_lags_counterexample :
    pausedNoTick.isPaused = true ∧ pausedNoTick.pausedTime = 10 ∧
    pausedNoTick.elapsedTime = 0 ∧
    pausedNoTick.elapsedTime ≠ pausedNoTick.pausedTime := by
  decide

/-- C4 amended: the exposed `elapsedTime` is display state owned by the
tick. Each tick that fires while Running re-derives it from absolute
timestamps as floor((now - segmentStart)/1000) + accumulatedBaseline (no
per-tick increment, so missed ticks cause no drift in the next value);
no tick fires while Paused or Idle; stop and reset force it to 0; and
pause/resume leave it at whatever the last tick wrote, so between ticks and
while Paused it can lag floor(now - segmentStart) + baseline. -/
theorem c4_tick_writes_display (s : TimerState) (st now : ℤ) :
    (s.isRunning = true → s.isPaused = false → s.startTime = some st →
      stepEvt s (.tick now)
        = { s with elapsedTime := Int.fdiv (now - st) 1000 + s.pausedTime }) ∧
    (s.isRunning = false ∨ s.isPaused = true → stepEvt s (.tick now) = s) ∧
    (stepEvt s .stop).elapsedTime = 0 ∧
    (stepEvt s .reset).elapsedTime = 0 ∧
    (stepEvt s (.pause now)).elapsedTime = s.elapsedTime ∧
    (stepEvt s (.resume now)).elapsedTime = s.elapsedTime := by
  refine ⟨?_, ?_, rfl, rfl, ?_, ?_⟩
  · intro h1 h2 hst
    simp [stepEvt, hst, h1, h2]
  · intro h
    have hg : (s.isRunning && !s.isPaused) = false := by
      rcases h with h | h <;> simp [h]
    cases hst : s.startTime with
    | none => simp [stepEvt, hst]
    | some st2 => simp [stepEvt, hst, hg]
  · cases hst : s.startTime with
    | none => simp [stepEvt, hst]
    | some st2 =>
      by_cases hg : (s.isRunning && !s.isPaused) = true
      · simp [stepEvt, hst, hg]
      · simp [stepEvt, hst, hg]
  · by_cases h : s.isPaused
    · simp [stepEvt, h]
    · simp [stepEvt, h]

/-- Witness for C4 amended: a tick at 5000 ms on the freshly started timer
writes 5 s into the display. -/
theorem c4_tick_writes_display_witness :
    stepEvt (stepEvt timerInit (.start 0)) (.tick 5000)
      = { stepEvt timerInit (.start 0) with
          elapsedTime := Int.fdiv (5000 - 0) 1000
            + (stepEvt timerInit (.start 0)).pausedTime } :=
  (c4_tick_writes_display (stepEvt timerInit (.start 0)) 0 5000).1 rfl rfl rfl
